import Mathlib

/-!
Verification of the Claerdex trading-engine core against its specification.

The embedding models the Python backend in exact rational arithmetic (ℚ):

* `src/backend/api/aeternity_client.py` — the price feed (`get_oracle_price`,
  mock fallback path with the configured `BASE_PRICES`) and the pure PnL
  calculator (`calculate_position_pnl`).
* `src/backend/api/index.py` — the position ledger (`open_position`,
  `close_position`) acting on `Account`/`Position` from
  `src/backend/api/models.py`.
* `src/backend/main.py` — the sibling backend; its `close_position` differs
  (it applies the long PnL formula regardless of side) and is embedded
  separately as `main_close_position`.

Python's pseudo-random draw `random.uniform(-v, v)` immediately after
`random.seed(s)` is a deterministic function of the pair `(s, v)`; it is
modelled by an abstract parameter `draw : ℤ → ℚ → ℚ`.  Python's string
`hash` is fixed within one process and is modelled by an abstract parameter
`strHash : String → ℤ`.  Python `round(x, d)` (round half to even) is
modelled by `pyRound`.  Python exceptions (`HTTPException`,
`ZeroDivisionError`) are modelled as `Except` error results.
-/

/-- Python's `round` to an integer: round half to even (banker's rounding). -/
def pyRoundInt (x : ℚ) : ℤ :=
  if x - ⌊x⌋ < 1/2 then ⌊x⌋
  else if 1/2 < x - ⌊x⌋ then ⌊x⌋ + 1
  else if ⌊x⌋ % 2 = 0 then ⌊x⌋ else ⌊x⌋ + 1

/-- Python's `round(x, d)`: round half to even at `d` decimal places. -/
def pyRound (x : ℚ) (d : ℕ) : ℚ :=
  (pyRoundInt (x * 10 ^ d) : ℚ) / 10 ^ d

/-- The `BASE_PRICES` dict of `aeternity_client.py`:
`{"AE": 0.03, "BTC": 68000.0, "ETH": 3500.0, "SOL": 150.0}`. -/
def BASE_PRICES (asset : String) : Option ℚ :=
  if asset = "AE" then some (3/100)
  else if asset = "BTC" then some 68000
  else if asset = "ETH" then some 3500
  else if asset = "SOL" then some 150
  else none

/-- The `VOLATILITY` dict of `aeternity_client.py`, read through
`VOLATILITY.get(asset, 0.002)`. -/
def VOLATILITY (asset : String) : ℚ :=
  if asset = "AE" then 2/1000
  else if asset = "BTC" then 3/1000
  else if asset = "ETH" then 25/10000
  else if asset = "SOL" then 4/1000
  else 2/1000

/-- Body of the mock-price branch of `get_oracle_price`
(`src/backend/api/aeternity_client.py`, lines 115–155), for a known asset
with base price `base`, at 5-second window number `interval`.

The loop `for _ in range(min(interval % 100, 20))` re-seeds the generator
with `temp_seed * hash(asset)` before every draw, where `temp_seed` counts
down from `interval`; each draw is therefore `draw (seed) volatility`.
(The draw on line 128 is dead: its value `change_percent` is never used and
the loop re-seeds before each of its own draws.)  After the cumulative
change is applied, the price is clamped to ±10% of base and rounded with an
asset-specific precision (6 decimals for AE, 2 for BTC/ETH/SOL). -/
def mockPriceAtInterval (draw : ℤ → ℚ → ℚ) (strHash : String → ℤ)
    (asset : String) (base : ℚ) (interval : ℕ) : ℚ :=
  let volatility := VOLATILITY asset
  let iters := min (interval % 100) 20
  let cumulative_change :=
    (Finset.range iters).sum (fun i => draw (((interval - i : ℕ) : ℤ) * strHash asset) volatility)
  let current_price := base * (1 + cumulative_change)
  let min_price := base * (9/10)
  let max_price := base * (11/10)
  let clamped := max min_price (min max_price current_price)
  if asset = "AE" then pyRound clamped 6
  else if asset = "BTC" ∨ asset = "ETH" then pyRound clamped 2
  else if asset = "SOL" then pyRound clamped 2
  else clamped

/-- Model of `get_oracle_price(asset)` from `src/backend/api/aeternity_client.py`,
mock fallback path (no `ORACLE_API_URL` configured), called at Unix time
`t` seconds: an unknown asset returns the sentinel `0.0`; otherwise the
price is a function of the 5-second window `interval = t // 5`.
`src/backend/aeternity_client.py` is identical except that AE is rounded
to 4 decimals instead of 6, which changes nothing in the theorems below. -/
def get_oracle_price (draw : ℤ → ℚ → ℚ) (strHash : String → ℤ)
    (asset : String) (t : ℕ) : ℚ :=
  match BASE_PRICES asset with
  | none => 0
  | some base => mockPriceAtInterval draw strHash asset base (t / 5)

/-- The `side: Literal["long", "short"]` field type from `src/backend/api/models.py`. -/
inductive Side where
  | long
  | short
deriving DecidableEq, Repr

/-- The `Position` model from `src/backend/api/models.py`. -/
structure Position where
  id : String
  asset : String
  side : Side
  size_usd : ℚ
  collateral_ae : ℚ
  leverage : ℚ
  entry_price : ℚ
  liquidation_price : ℚ
  unrealized_pnl_usd : ℚ := 0
  unrealized_pnl_ae : ℚ := 0
  current_price : Option ℚ := none
deriving DecidableEq, Repr

/-- The `Account` model from `src/backend/api/models.py`. -/
structure Account where
  address : String
  on_chain_balance_ae : ℚ
  available_collateral_ae : ℚ
  positions : List Position
deriving DecidableEq, Repr

/-- The `OpenPositionRequest` model from `src/backend/api/models.py`; note that
`collateral_to_use_ae` and `leverage` are unconstrained floats. -/
structure OpenPositionRequest where
  user_address : String
  asset : String
  side : Side
  collateral_to_use_ae : ℚ
  leverage : ℚ
deriving DecidableEq, Repr

/-- Failure outcomes of the ledger endpoints.  The first three model the
`HTTPException`s raised explicitly by `index.py`; `zeroDivision` models an
uncaught Python `ZeroDivisionError`. -/
inductive ApiError where
  | insufficientCollateral
  | priceUnavailable
  | positionNotFound
  | zeroDivision
deriving DecidableEq, Repr

/-- Result of `calculate_position_pnl`. -/
structure PnlData where
  pnl_usd : ℚ
  pnl_percent : ℚ
deriving DecidableEq, Repr

/-- Model of `calculate_position_pnl` from `src/backend/api/aeternity_client.py`
(lines 428–454): side-dependent PnL in USD, rounded to 2 decimals, with a
percentage figure.  Precondition of the Python code: `entry_price ≠ 0`
(division); all call sites below guard it. -/
def calculate_position_pnl (position_size_usd entry_price current_price : ℚ)
    (side : Side) : PnlData :=
  let pnl_usd :=
    if side = Side.long then
      (current_price - entry_price) * (position_size_usd / entry_price)
    else
      (entry_price - current_price) * (position_size_usd / entry_price)
  let pnl_percent := if position_size_usd ≠ 0 then pnl_usd / position_size_usd * 100 else 0
  ⟨pyRound pnl_usd 2, pyRound pnl_percent 2⟩

/-- The `liquidation_price` expression of `open_position`
(`src/backend/api/index.py` line 483 = `src/backend/main.py` line 84):
`entry_price * (1 - (1 / leverage))` for long, `entry_price * (1 + (1 / leverage))`
for short. -/
def liquidation_price_calc (entry_price leverage : ℚ) (side : Side) : ℚ :=
  if side = Side.long then entry_price * (1 - 1 / leverage)
  else entry_price * (1 + 1 / leverage)

/-- Model of `open_position` from `src/backend/api/index.py` (lines 466–507), acting
on the caller's account.  `entry_price` is the value returned by
`ae.get_oracle_price(request.asset)` and `new_id` the fresh `uuid.uuid4()`
string.  Checks in source order: insufficient collateral (line 472), zero
oracle price (line 477); the liquidation-price expression on line 483
divides by `request.leverage` unguarded, so `leverage = 0` raises a Python
`ZeroDivisionError`, modelled as the `zeroDivision` outcome.  On success the
position is appended and the collateral deducted (lines 497–498). -/
def open_position (entry_price : ℚ) (new_id : String) (account : Account)
    (request : OpenPositionRequest) : Except ApiError (Account × Position) :=
  if request.collateral_to_use_ae > account.available_collateral_ae then
    .error .insufficientCollateral
  else if entry_price = 0 then
    .error .priceUnavailable
  else if request.leverage = 0 then
    .error .zeroDivision
  else
    let position_size_usd := request.collateral_to_use_ae * entry_price * request.leverage
    let liquidation_price := liquidation_price_calc entry_price request.leverage request.side
    let new_position : Position :=
      { id := new_id
        asset := request.asset
        side := request.side
        size_usd := position_size_usd
        collateral_ae := request.collateral_to_use_ae
        leverage := request.leverage
        entry_price := entry_price
        liquidation_price := liquidation_price }
    .ok ({ account with
            positions := account.positions ++ [new_position]
            available_collateral_ae :=
              account.available_collateral_ae - request.collateral_to_use_ae },
         new_position)

/-- Model of `close_position` from `src/backend/api/index.py` (lines 509–539).
`closing_price` is the value returned by `ae.get_oracle_price` for the
position's asset.  `next((p for p in ...), None)` is `List.find?`; a miss
raises the 404 "Position not found" (line 517).  The PnL divisions by
`entry_price` (inside `calculate_position_pnl`) and by `closing_price`
(line 530) are unguarded in Python and would raise `ZeroDivisionError`,
modelled as the `zeroDivision` outcome.  Settlement credits
`collateral_ae + pnl_ae` and removes every position with the closed id
(lines 533–534). -/
def close_position (closing_price : ℚ) (account : Account)
    (position_id : String) : Except ApiError (Account × ℚ) :=
  match account.positions.find? (fun p => p.id = position_id) with
  | none => .error .positionNotFound
  | some position_to_close =>
    if position_to_close.entry_price = 0 then .error .zeroDivision
    else if closing_price = 0 then .error .zeroDivision
    else
      let pnl_usd := (calculate_position_pnl position_to_close.size_usd
          position_to_close.entry_price closing_price position_to_close.side).pnl_usd
      let pnl_ae := pnl_usd / closing_price
      .ok ({ account with
              available_collateral_ae :=
                account.available_collateral_ae + position_to_close.collateral_ae + pnl_ae
              positions := account.positions.filter (fun p => p.id ≠ position_id) },
           pnl_ae)

/-- Model of `close_position` from `src/backend/main.py` (lines 107–128).  Unlike the
`api/index.py` version it computes `pnl_usd` directly on line 121 as
`(closing_price - entry_price) * (size_usd / entry_price)` — the long
formula — regardless of `position_to_close.side`, and applies no rounding. -/
def main_close_position (closing_price : ℚ) (account : Account)
    (position_id : String) : Except ApiError (Account × ℚ) :=
  match account.positions.find? (fun p => p.id = position_id) with
  | none => .error .positionNotFound
  | some position_to_close =>
    if position_to_close.entry_price = 0 then .error .zeroDivision
    else if closing_price = 0 then .error .zeroDivision
    else
      let pnl_usd := (closing_price - position_to_close.entry_price) *
          (position_to_close.size_usd / position_to_close.entry_price)
      let pnl_ae := pnl_usd / closing_price
      .ok ({ account with
              available_collateral_ae :=
                account.available_collateral_ae + position_to_close.collateral_ae + pnl_ae
              positions := account.positions.filter (fun p => p.id ≠ position_id) },
           pnl_ae)

/-- Sum of `collateral_ae` over a list of positions. -/
def sumColl (l : List Position) : ℚ :=
  (l.map Position.collateral_ae).sum

/-- Reachable account states of the `api/index.py` backend, paired with the
total realized PnL (in AE) credited by closes so far.

* `seed`: `get_or_create_account` creates a fresh account with
  `available_collateral_ae = on_chain_balance_ae` (lines 196–201).
  `get_on_chain_balance` is the constant stub `1000.0`, so the per-request
  balance refresh never changes `on_chain_balance_ae`; we keep the field
  fixed across steps, seeded from an arbitrary balance.
* `openStep`: a successful `POST /positions/open`; the fresh `uuid.uuid4()`
  id is modelled by the freshness hypothesis.
* `closeStep`: a successful `POST /positions/close/{position_id}`; the
  closing price is whatever the oracle returned at that moment (with
  `ORACLE_API_URL` configured the oracle can return any float). -/
inductive Reach : Account → ℚ → Prop where
  | seed (address : String) (balance : ℚ) :
      Reach ⟨address, balance, balance, []⟩ 0
  | openStep {acc : Account} {r : ℚ} (price : ℚ) (new_id : String)
      (request : OpenPositionRequest) {acc' : Account} {pos : Position} :
      Reach acc r →
      (∀ p ∈ acc.positions, p.id ≠ new_id) →
      open_position price new_id acc request = .ok (acc', pos) →
      Reach acc' r
  | closeStep {acc : Account} {r : ℚ} (price : ℚ) (position_id : String)
      {acc' : Account} {pnl : ℚ} :
      Reach acc r →
      close_position price acc position_id = .ok (acc', pnl) →
      Reach acc' (r + pnl)

/-! ### Helper lemmas -/

lemma pyRoundInt_ge_floor (x : ℚ) : ⌊x⌋ ≤ pyRoundInt x := by
  unfold pyRoundInt
  split_ifs <;> omega

lemma pyRoundInt_le_ceil (x : ℚ) : pyRoundInt x ≤ ⌈x⌉ := by
  unfold pyRoundInt
  split_ifs with h1 h2 h3
  · exact Int.floor_le_ceil x
  · rw [Int.add_one_le_iff, Int.lt_ceil]
    have : (0 : ℚ) < x - ⌊x⌋ := lt_trans (by norm_num) h2
    linarith
  · exact Int.floor_le_ceil x
  · rw [Int.add_one_le_iff, Int.lt_ceil]
    have hr : (1/2 : ℚ) ≤ x - ⌊x⌋ := le_of_not_lt h1
    have : (0 : ℚ) < x - ⌊x⌋ := lt_of_lt_of_le (by norm_num) hr
    linarith

/-- If `x` lies between two bounds that are exact at `d` decimal places,
`pyRound x d` lies between them as well. -/
lemma pyRound_bounds (d : ℕ) (x : ℚ) (a b : ℤ)
    (h1 : (a : ℚ) / 10 ^ d ≤ x) (h2 : x ≤ (b : ℚ) / 10 ^ d) :
    (a : ℚ) / 10 ^ d ≤ pyRound x d ∧ pyRound x d ≤ (b : ℚ) / 10 ^ d := by
  have hpow : (0 : ℚ) < 10 ^ d := by positivity
  have ha : (a : ℚ) ≤ x * 10 ^ d := by
    have := mul_le_mul_of_nonneg_right h1 (le_of_lt hpow)
    calc (a : ℚ) = (a : ℚ) / 10 ^ d * 10 ^ d := by field_simp
    _ ≤ x * 10 ^ d := this
  have hb : x * 10 ^ d ≤ (b : ℚ) := by
    have := mul_le_mul_of_nonneg_right h2 (le_of_lt hpow)
    calc x * 10 ^ d ≤ (b : ℚ) / 10 ^ d * 10 ^ d := this
    _ = (b : ℚ) := by field_simp
  have hfa : a ≤ ⌊x * 10 ^ d⌋ := Int.le_floor.mpr ha
  have hcb : ⌈x * 10 ^ d⌉ ≤ b := Int.ceil_le.mpr hb
  have hlow : a ≤ pyRoundInt (x * 10 ^ d) :=
    le_trans hfa (pyRoundInt_ge_floor _)
  have hhigh : pyRoundInt (x * 10 ^ d) ≤ b :=
    le_trans (pyRoundInt_le_ceil _) hcb
  unfold pyRound
  constructor
  · exact (div_le_div_iff_of_pos_right hpow).mpr (by exact_mod_cast hlow)
  · exact (div_le_div_iff_of_pos_right hpow).mpr (by exact_mod_cast hhigh)

lemma sumColl_nil : sumColl [] = 0 := rfl

lemma sumColl_cons (p : Position) (l : List Position) :
    sumColl (p :: l) = p.collateral_ae + sumColl l := by
  simp [sumColl]

lemma sumColl_append (l₁ l₂ : List Position) :
    sumColl (l₁ ++ l₂) = sumColl l₁ + sumColl l₂ := by
  simp [sumColl]

/-- Removing the positions with a given id from a list whose ids are
distinct removes exactly the collateral of the one matching position. -/
lemma sumColl_filter_of_nodup {l : List Position} {pid : String} {p : Position}
    (hnd : (l.map Position.id).Nodup) (hp : p ∈ l) (hpid : p.id = pid) :
    sumColl (l.filter (fun q => q.id ≠ pid)) = sumColl l - p.collateral_ae := by
  induction l with
  | nil => cases hp
  | cons a t ih =>
    rw [List.map_cons, List.nodup_cons] at hnd
    by_cases ha : a.id = pid
    · have hpa : p = a := by
        rcases List.mem_cons.mp hp with h | h
        · exact h
        · exact absurd (ha ▸ hpid ▸ List.mem_map_of_mem Position.id h) hnd.1
      have ht : t.filter (fun q => q.id ≠ pid) = t := by
        apply List.filter_eq_self.mpr
        intro q hq
        simp only [ne_eq, decide_not, Bool.not_eq_true', decide_eq_false_iff_not]
        intro hq'
        exact hnd.1 (ha ▸ hq' ▸ List.mem_map_of_mem Position.id hq)
      rw [List.filter_cons_of_neg (by simp [ha]), ht, sumColl_cons, hpa]
      ring
    · have hpt : p ∈ t := by
        rcases List.mem_cons.mp hp with h | h
        · exact absurd (h ▸ hpid) ha
        · exact h
      rw [List.filter_cons_of_pos (by simp [ha]), sumColl_cons,
        ih hnd.2 hpt, sumColl_cons]
      ring

/-- Removing the positions with a given id from a list whose ids are
distinct removes exactly one entry. -/
lemma length_filter_of_nodup {l : List Position} {pid : String} {p : Position}
    (hnd : (l.map Position.id).Nodup) (hp : p ∈ l) (hpid : p.id = pid) :
    (l.filter (fun q => q.id ≠ pid)).length + 1 = l.length := by
  induction l with
  | nil => cases hp
  | cons a t ih =>
    rw [List.map_cons, List.nodup_cons] at hnd
    by_cases ha : a.id = pid
    · have ht : t.filter (fun q => q.id ≠ pid) = t := by
        apply List.filter_eq_self.mpr
        intro q hq
        simp only [ne_eq, decide_not, Bool.not_eq_true', decide_eq_false_iff_not]
        intro hq'
        exact hnd.1 (ha ▸ hq' ▸ List.mem_map_of_mem Position.id hq)
      rw [List.filter_cons_of_neg (by simp [ha]), ht, List.length_cons]
    · have hpt : p ∈ t := by
        rcases List.mem_cons.mp hp with h | h
        · exact absurd (h ▸ hpid) ha
        · exact h
      rw [List.filter_cons_of_pos (by simp [ha]), List.length_cons,
        List.length_cons, ih hnd.2 hpt]

/-- Anatomy of a successful open: all three guards passed, the position
carries the request's data, and the account was updated by appending the
position and deducting its collateral. -/
lemma open_position_ok_elim {entry_price : ℚ} {new_id : String} {account : Account}
    {request : OpenPositionRequest} {acc' : Account} {pos : Position}
    (h : open_position entry_price new_id account request = .ok (acc', pos)) :
    request.collateral_to_use_ae ≤ account.available_collateral_ae ∧
    entry_price ≠ 0 ∧ request.leverage ≠ 0 ∧
    pos = { id := new_id
            asset := request.asset
            side := request.side
            size_usd := request.collateral_to_use_ae * entry_price * request.leverage
            collateral_ae := request.collateral_to_use_ae
            leverage := request.leverage
            entry_price := entry_price
            liquidation_price :=
              liquidation_price_calc entry_price request.leverage request.side } ∧
    acc' = { account with
             positions := account.positions ++ [pos]
             available_collateral_ae :=
               account.available_collateral_ae - request.collateral_to_use_ae } := by
  unfold open_position at h
  split_ifs at h with h1 h2 h3
  simp only [Except.ok.injEq, Prod.mk.injEq] at h
  exact ⟨not_lt.mp h1, h2, h3, h.2.symm, by rw [← h.1, ← h.2]⟩

/-- A successful open, given that the three guards pass. -/
lemma open_position_ok_intro {entry_price : ℚ} {new_id : String} {account : Account}
    {request : OpenPositionRequest}
    (hc : request.collateral_to_use_ae ≤ account.available_collateral_ae)
    (he : entry_price ≠ 0) (hl : request.leverage ≠ 0) :
    open_position entry_price new_id account request =
      .ok ({ account with
             positions := account.positions ++
               [{ id := new_id
                  asset := request.asset
                  side := request.side
                  size_usd := request.collateral_to_use_ae * entry_price * request.leverage
                  collateral_ae := request.collateral_to_use_ae
                  leverage := request.leverage
                  entry_price := entry_price
                  liquidation_price :=
                    liquidation_price_calc entry_price request.leverage request.side }]
             available_collateral_ae :=
               account.available_collateral_ae - request.collateral_to_use_ae },
           { id := new_id
             asset := request.asset
             side := request.side
             size_usd := request.collateral_to_use_ae * entry_price * request.leverage
             collateral_ae := request.collateral_to_use_ae
             leverage := request.leverage
             entry_price := entry_price
             liquidation_price :=
               liquidation_price_calc entry_price request.leverage request.side }) := by
  unfold open_position
  rw [if_neg (not_lt.mpr hc), if_neg he, if_neg hl]

/-- Anatomy of a successful close: the position was found, the guards
passed, the PnL was credited on top of the returned collateral and every
position with the closed id was removed. -/
lemma close_position_ok_elim {closing_price : ℚ} {account : Account}
    {position_id : String} {acc' : Account} {pnl : ℚ}
    (h : close_position closing_price account position_id = .ok (acc', pnl)) :
    ∃ p, account.positions.find? (fun q => q.id = position_id) = some p ∧
      p.entry_price ≠ 0 ∧ closing_price ≠ 0 ∧
      pnl = (calculate_position_pnl p.size_usd p.entry_price closing_price p.side).pnl_usd
              / closing_price ∧
      acc' = { account with
               available_collateral_ae :=
                 account.available_collateral_ae + p.collateral_ae + pnl
               positions := account.positions.filter (fun q => q.id ≠ position_id) } := by
  unfold close_position at h
  cases hf : account.positions.find? (fun q => q.id = position_id) with
  | none => rw [hf] at h; exact absurd h (by simp)
  | some p =>
    rw [hf] at h
    simp only at h
    split_ifs at h with h1 h2
    simp only [Except.ok.injEq, Prod.mk.injEq] at h
    exact ⟨p, rfl, h1, h2, h.2.symm, by rw [← h.1, ← h.2]⟩

/-- Core accounting invariant of the `api/index.py` ledger: along every
reachable history the position ids stay distinct and the available
collateral equals the on-chain balance, minus the collateral locked in the
open positions, plus the total realized PnL credited by closes. -/
lemma reach_accounting {acc : Account} {r : ℚ} (h : Reach acc r) :
    (acc.positions.map Position.id).Nodup ∧
    acc.available_collateral_ae =
      acc.on_chain_balance_ae - sumColl acc.positions + r := by
  induction h with
  | seed address balance => simp [sumColl]
  | openStep price new_id request hr hfresh heq ih =>
    obtain ⟨hc, he, hl, hpos, hacc⟩ := open_position_ok_elim heq
    subst hacc
    constructor
    · simp only [List.map_append, List.map_cons, List.map_nil]
      rw [List.nodup_append]
      refine ⟨ih.1, List.nodup_singleton _, ?_⟩
      intro a ha
      simp only [List.mem_singleton]
      obtain ⟨q, hq, hqa⟩ := List.mem_map.mp ha
      intro hcontr
      apply hfresh q hq
      rw [hqa, hcontr, hpos]
    · have h2 := ih.2
      simp only [sumColl_append, sumColl_cons, sumColl_nil, hpos]
      linarith
  | closeStep price position_id hr heq ih =>
    obtain ⟨p, hfind, hep, hpr, hpnl, hacc⟩ := close_position_ok_elim heq
    have hpmem : p ∈ _ := List.mem_of_find?_eq_some hfind
    have hpid : p.id = position_id := by
      have := List.find?_some hfind
      simpa using this
    subst hacc
    constructor
    · exact ((List.filter_sublist _).map Position.id).nodup ih.1
    · have h2 := ih.2
      simp only [sumColl_filter_of_nodup ih.1 hpmem hpid]
      linarith

/-! ### Claim theorems -/

/-- C1, amended.  The claimed invariant
`available_collateral_ae = on_chain_balance_ae − Σ(collateral_ae)` does not
survive a close with nonzero PnL (see the counterexample): settlement
credits `collateral_ae + pnl_ae` while `on_chain_balance_ae` stays put.
What holds after every sequence of successful opens and closes is the
corrected accounting identity with the total realized PnL added: exactly
the claimed invariant whenever no realized PnL has accrued (in particular
after opens alone). -/
theorem collateral_accounting_with_realized_pnl {acc : Account} {r : ℚ}
    (h : Reach acc r) :
    acc.available_collateral_ae =
      acc.on_chain_balance_ae - sumColl acc.positions + r :=
  (reach_accounting h).2

/-- Witness for C1's amended theorem: a seeded account that opened one BTC
long (collateral 10 AE, leverage 5, entry 68000) satisfies the identity
with zero realized PnL. -/
theorem collateral_accounting_with_realized_pnl_witness :
    (990 : ℚ) = 1000 -
      sumColl [{ id := "p1", asset := "BTC", side := Side.long, size_usd := 3400000,
                 collateral_ae := 10, leverage := 5, entry_price := 68000,
                 liquidation_price := 54400 }] + 0 := by
  have hopen : open_position 68000 "p1" (Account.mk "ak_test" 1000 1000 [])
      ⟨"ak_test", "BTC", Side.long, 10, 5⟩ =
      .ok (Account.mk "ak_test" 1000 990
        [{ id := "p1", asset := "BTC", side := Side.long, size_usd := 3400000,
           collateral_ae := 10, leverage := 5, entry_price := 68000,
           liquidation_price := 54400 }],
        { id := "p1", asset := "BTC", side := Side.long, size_usd := 3400000,
          collateral_ae := 10, leverage := 5, entry_price := 68000,
          liquidation_price := 54400 }) := by
    norm_num [open_position, liquidation_price_calc]
  have hreach : Reach (Account.mk "ak_test" 1000 990
      [{ id := "p1", asset := "BTC", side := Side.long, size_usd := 3400000,
         collateral_ae := 10, leverage := 5, entry_price := 68000,
         liquidation_price := 54400 }]) 0 :=
    Reach.openStep 68000 "p1" ⟨"ak_test", "BTC", Side.long, 10, 5⟩
      (Reach.seed "ak_test" 1000) (by intro p hp; cases hp) hopen
  simpa using collateral_accounting_with_realized_pnl hreach

/-- C1, counterexample.  Seed an account with balance 1000, open a BTC long
(collateral 10 AE, leverage 5) at entry 68000, close it at 70000: the close
realizes +100000 USD = 10/7 AE, so `available_collateral_ae = 1000 + 10/7`
while `on_chain_balance_ae − Σ(collateral_ae) = 1000 − 0 = 1000`.  The gap
10/7 ≈ 1.43 AE is the realized PnL, not a floating-point tolerance. -/
theorem collateral_invariant_counterexample :
    (∃ r : ℚ, Reach (Account.mk "ak_test" 1000 (1000 + 10/7) []) r) ∧
    (Account.mk "ak_test" 1000 (1000 + 10/7) []).available_collateral_ae ≠
      (Account.mk "ak_test" 1000 (1000 + 10/7) []).on_chain_balance_ae -
        sumColl (Account.mk "ak_test" 1000 (1000 + 10/7) []).positions := by
  constructor
  · have hopen : open_position 68000 "p1" (Account.mk "ak_test" 1000 1000 [])
        ⟨"ak_test", "BTC", Side.long, 10, 5⟩ =
        .ok (Account.mk "ak_test" 1000 990
          [{ id := "p1", asset := "BTC", side := Side.long, size_usd := 3400000,
             collateral_ae := 10, leverage := 5, entry_price := 68000,
             liquidation_price := 54400 }],
          { id := "p1", asset := "BTC", side := Side.long, size_usd := 3400000,
            collateral_ae := 10, leverage := 5, entry_price := 68000,
            liquidation_price := 54400 }) := by
      norm_num [open_position, liquidation_price_calc]
    have hclose : close_position 70000 (Account.mk "ak_test" 1000 990
        [{ id := "p1", asset := "BTC", side := Side.long, size_usd := 3400000,
           collateral_ae := 10, leverage := 5, entry_price := 68000,
           liquidation_price := 54400 }]) "p1" =
        .ok (Account.mk "ak_test" 1000 (1000 + 10/7) [], 10/7) := by
      norm_num [close_position, calculate_position_pnl, pyRound, pyRoundInt,
        List.find?, List.filter]
    exact ⟨0 + 10/7, Reach.closeStep 70000 "p1"
      (Reach.openStep 68000 "p1" ⟨"ak_test", "BTC", Side.long, 10, 5⟩
        (Reach.seed "ak_test" 1000) (by intro p hp; cases hp) hopen) hclose⟩
  · norm_num [sumColl]

/-- C3, amended.  `available_collateral_ae ≥ 0` is guaranteed after every
successful open (the insufficiency check deducts at most what is
available), but not after every close: a close whose realized loss exceeds
the returned collateral drives the balance negative (see the
counterexample), which §4.3 and §9 of the spec acknowledge. -/
theorem open_preserves_nonneg_available {entry_price : ℚ} {new_id : String}
    {account : Account} {request : OpenPositionRequest} {acc' : Account}
    {pos : Position}
    (h : open_position entry_price new_id account request = .ok (acc', pos)) :
    0 ≤ acc'.available_collateral_ae := by
  obtain ⟨hc, -, -, -, hacc⟩ := open_position_ok_elim h
  subst hacc
  simp only
  linarith

/-- Witness for C3's amended theorem: the concrete BTC open above leaves a
nonnegative available collateral. -/
theorem open_preserves_nonneg_available_witness :
    0 ≤ (Account.mk "ak_test" 1000 990
      [{ id := "p1", asset := "BTC", side := Side.long, size_usd := 3400000,
         collateral_ae := 10, leverage := 5, entry_price := 68000,
         liquidation_price := 54400 }]).available_collateral_ae := by
  have hopen : open_position 68000 "p1" (Account.mk "ak_test" 1000 1000 [])
      ⟨"ak_test", "BTC", Side.long, 10, 5⟩ =
      .ok (Account.mk "ak_test" 1000 990
        [{ id := "p1", asset := "BTC", side := Side.long, size_usd := 3400000,
           collateral_ae := 10, leverage := 5, entry_price := 68000,
           liquidation_price := 54400 }],
        { id := "p1", asset := "BTC", side := Side.long, size_usd := 3400000,
          collateral_ae := 10, leverage := 5, entry_price := 68000,
          liquidation_price := 54400 }) := by
    norm_num [open_position, liquidation_price_calc]
  exact open_preserves_nonneg_available hopen

/-- C3, counterexample.  Seed with balance 1000, open a BTC long with all
1000 AE at leverage 100 and entry 68000, close at 67000: the loss is
100000000 USD = 100000/67 ≈ 1492.5 AE, far above the 1000 AE collateral,
leaving `available_collateral_ae = −33000/67 < 0` on a reachable account. -/
theorem available_negative_after_close :
    (∃ r : ℚ, Reach (Account.mk "ak_test" 1000 (-33000/67) []) r) ∧
    (Account.mk "ak_test" 1000 (-33000/67) []).available_collateral_ae < 0 := by
  constructor
  · have hopen : open_position 68000 "p2" (Account.mk "ak_test" 1000 1000 [])
        ⟨"ak_test", "BTC", Side.long, 1000, 100⟩ =
        .ok (Account.mk "ak_test" 1000 0
          [{ id := "p2", asset := "BTC", side := Side.long, size_usd := 6800000000,
             collateral_ae := 1000, leverage := 100, entry_price := 68000,
             liquidation_price := 67320 }],
          { id := "p2", asset := "BTC", side := Side.long, size_usd := 6800000000,
            collateral_ae := 1000, leverage := 100, entry_price := 68000,
            liquidation_price := 67320 }) := by
      norm_num [open_position, liquidation_price_calc]
    have hclose : close_position 67000 (Account.mk "ak_test" 1000 0
        [{ id := "p2", asset := "BTC", side := Side.long, size_usd := 6800000000,
           collateral_ae := 1000, leverage := 100, entry_price := 68000,
           liquidation_price := 67320 }]) "p2" =
        .ok (Account.mk "ak_test" 1000 (-33000/67) [], -100000/67) := by
      norm_num [close_position, calculate_position_pnl, pyRound, pyRoundInt,
        List.find?, List.filter]
    exact ⟨0 + -100000/67, Reach.closeStep 67000 "p2"
      (Reach.openStep 68000 "p2" ⟨"ak_test", "BTC", Side.long, 1000, 100⟩
        (Reach.seed "ak_test" 1000) (by intro p hp; cases hp) hopen) hclose⟩
  · norm_num

/-- C4.  Within one 5-second window the mock oracle price is identical:
`get_oracle_price` depends on the timestamp only through `t / 5`, and the
pseudo-random perturbation is a deterministic function of the window number
and the asset (its seeds are built from these alone). -/
theorem oracle_price_deterministic_in_window (draw : ℤ → ℚ → ℚ)
    (strHash : String → ℤ) (asset : String) (t1 t2 : ℕ) (h : t1 / 5 = t2 / 5) :
    get_oracle_price draw strHash asset t1 =
      get_oracle_price draw strHash asset t2 := by
  unfold get_oracle_price
  rw [h]

/-- Witness for C4: timestamps 101 and 104 share the window `20` and get
the same BTC price. -/
theorem oracle_price_deterministic_in_window_witness :
    get_oracle_price (fun _ _ => 0) (fun _ => 0) "BTC" 101 =
      get_oracle_price (fun _ _ => 0) (fun _ => 0) "BTC" 104 :=
  oracle_price_deterministic_in_window (fun _ _ => 0) (fun _ => 0) "BTC" 101 104 rfl

/-- Clamping into `[lo, hi]` and then rounding at a precision at which both
bounds are exact stays inside `[lo, hi]`. -/
lemma clamp_round_bounds (d : ℕ) (lo hi x : ℚ) (a b : ℤ)
    (ha : lo = (a : ℚ) / 10 ^ d) (hb : hi = (b : ℚ) / 10 ^ d) (hle : lo ≤ hi) :
    lo ≤ pyRound (max lo (min hi x)) d ∧ pyRound (max lo (min hi x)) d ≤ hi := by
  have h1 : lo ≤ max lo (min hi x) := le_max_left _ _
  have h2 : max lo (min hi x) ≤ hi := max_le hle (min_le_left _ _)
  subst ha hb
  exact pyRound_bounds d _ a b h1 h2

/-- For a configured asset, the oracle price is the mock walk price of the
asset's base at the call's 5-second window. -/
lemma get_oracle_price_known {asset : String} {base : ℚ}
    (h : BASE_PRICES asset = some base) (draw : ℤ → ℚ → ℚ)
    (strHash : String → ℤ) (t : ℕ) :
    get_oracle_price draw strHash asset t =
      mockPriceAtInterval draw strHash asset base (t / 5) := by
  unfold get_oracle_price
  rw [h]

/-- C8.  For every asset with a configured base price, the mock price —
clamp to ±10% of base followed by the asset-specific rounding — never
leaves `[base × 0.9, base × 1.1]`, whatever the cumulative perturbation:
the clamp enforces the bounds, and for each configured base the bounds are
exact at that asset's rounding precision, so rounding cannot cross them. -/
theorem oracle_price_within_ten_percent (draw : ℤ → ℚ → ℚ)
    (strHash : String → ℤ) (asset : String) (base : ℚ) (t : ℕ)
    (h : BASE_PRICES asset = some base) :
    base * (9/10) ≤ get_oracle_price draw strHash asset t ∧
      get_oracle_price draw strHash asset t ≤ base * (11/10) := by
  have hq := get_oracle_price_known h draw strHash t
  rw [hq]
  unfold BASE_PRICES at h
  split_ifs at h with h1 h2 h3 h4 <;> injection h with hb <;> subst hb
  · subst h1
    rw [mockPriceAtInterval, if_pos rfl]
    exact clamp_round_bounds 6 _ _ _ 27000 33000 (by norm_num) (by norm_num) (by norm_num)
  · subst h2
    rw [mockPriceAtInterval, if_neg (by decide), if_pos (Or.inl rfl)]
    exact clamp_round_bounds 2 _ _ _ 6120000 7480000 (by norm_num) (by norm_num) (by norm_num)
  · subst h3
    rw [mockPriceAtInterval, if_neg (by decide), if_pos (Or.inr rfl)]
    exact clamp_round_bounds 2 _ _ _ 315000 385000 (by norm_num) (by norm_num) (by norm_num)
  · subst h4
    rw [mockPriceAtInterval, if_neg (by decide), if_neg (by decide), if_pos rfl]
    exact clamp_round_bounds 2 _ _ _ 13500 16500 (by norm_num) (by norm_num) (by norm_num)

/-- Witness for C8: BTC at window 0 stays within ±10% of its 68000 base. -/
theorem oracle_price_within_ten_percent_witness :
    (68000 : ℚ) * (9/10) ≤ get_oracle_price (fun _ _ => 0) (fun _ => 0) "BTC" 0 ∧
      get_oracle_price (fun _ _ => 0) (fun _ => 0) "BTC" 0 ≤ 68000 * (11/10) :=
  oracle_price_within_ten_percent (fun _ _ => 0) (fun _ => 0) "BTC" 68000 0 rfl

/-- C5.  A successful open computes the liquidation price as
`entry × (1 − 1/leverage)` for a long and `entry × (1 + 1/leverage)` for a
short; for a positive entry price and leverage above 1 this lies strictly
below (long) respectively strictly above (short) the entry price. -/
theorem liquidation_price_formula {entry_price : ℚ} {new_id : String}
    {account : Account} {request : OpenPositionRequest} {acc' : Account}
    {pos : Position}
    (h : open_position entry_price new_id account request = .ok (acc', pos))
    (he : 0 < entry_price) (hl : 1 < request.leverage) :
    (request.side = Side.long →
      pos.liquidation_price = entry_price * (1 - 1 / request.leverage) ∧
      pos.liquidation_price < entry_price) ∧
    (request.side = Side.short →
      pos.liquidation_price = entry_price * (1 + 1 / request.leverage) ∧
      entry_price < pos.liquidation_price) := by
  obtain ⟨-, -, -, hpos, -⟩ := open_position_ok_elim h
  have hlev : (0 : ℚ) < request.leverage := lt_trans one_pos hl
  have hinv : (0 : ℚ) < 1 / request.leverage := by positivity
  have hmul : 0 < entry_price * (1 / request.leverage) := mul_pos he hinv
  constructor
  · intro hs
    have : pos.liquidation_price = entry_price * (1 - 1 / request.leverage) := by
      rw [hpos]
      simp [liquidation_price_calc, hs]
    refine ⟨this, ?_⟩
    rw [this]
    nlinarith
  · intro hs
    have : pos.liquidation_price = entry_price * (1 + 1 / request.leverage) := by
      rw [hpos]
      simp [liquidation_price_calc, hs]
    refine ⟨this, ?_⟩
    rw [this]
    nlinarith

/-- Witness for C5: the spec's example — entry 68000 at leverage 5, long —
yields liquidation price 54400, strictly below the entry. -/
theorem liquidation_price_formula_witness :
    ∃ acc' pos, open_position 68000 "p1" (Account.mk "ak_test" 1000 1000 [])
        ⟨"ak_test", "BTC", Side.long, 10, 5⟩ = .ok (acc', pos) ∧
      pos.liquidation_price = 54400 ∧ pos.liquidation_price < 68000 := by
  have hopen : open_position 68000 "p1" (Account.mk "ak_test" 1000 1000 [])
      ⟨"ak_test", "BTC", Side.long, 10, 5⟩ =
      .ok (Account.mk "ak_test" 1000 990
        [{ id := "p1", asset := "BTC", side := Side.long, size_usd := 3400000,
           collateral_ae := 10, leverage := 5, entry_price := 68000,
           liquidation_price := 54400 }],
        { id := "p1", asset := "BTC", side := Side.long, size_usd := 3400000,
          collateral_ae := 10, leverage := 5, entry_price := 68000,
          liquidation_price := 54400 }) := by
    norm_num [open_position, liquidation_price_calc]
  obtain ⟨hlong, -⟩ := liquidation_price_formula hopen (by norm_num) (by norm_num)
  obtain ⟨heq, hlt⟩ := hlong rfl
  exact ⟨_, _, hopen, by rw [heq]; norm_num, hlt⟩

/-- C6.  A quote for an asset outside `BASE_PRICES` returns the sentinel
`0.0` instead of raising, and an open against such an asset (with enough
collateral to pass the first check) fails with the price-unavailable error
— the guard fires before the position is appended or the collateral
deducted, so the error result carries no state change. -/
theorem unknown_asset_quote_and_open (draw : ℤ → ℚ → ℚ)
    (strHash : String → ℤ) (asset : String) (t : ℕ)
    (h : BASE_PRICES asset = none) (account : Account)
    (new_id addr : String) (side : Side) (c lev : ℚ)
    (hc : c ≤ account.available_collateral_ae) :
    get_oracle_price draw strHash asset t = 0 ∧
    open_position (get_oracle_price draw strHash asset t) new_id account
      ⟨addr, asset, side, c, lev⟩ = .error .priceUnavailable := by
  have hq : get_oracle_price draw strHash asset t = 0 := by
    unfold get_oracle_price
    rw [h]
  refine ⟨hq, ?_⟩
  rw [hq]
  unfold open_position
  simp [not_lt.mpr hc]

/-- Witness for C6: the unknown symbol "DOGE" quotes the sentinel 0 and an
open against it is rejected as price-unavailable. -/
theorem unknown_asset_quote_and_open_witness :
    get_oracle_price (fun _ _ => 0) (fun _ => 0) "DOGE" 0 = 0 ∧
    open_position (get_oracle_price (fun _ _ => 0) (fun _ => 0) "DOGE" 0) "p1"
      (Account.mk "ak_test" 1000 1000 [])
      ⟨"ak_test", "DOGE", Side.long, 10, 5⟩ = .error .priceUnavailable :=
  unknown_asset_quote_and_open (fun _ _ => 0) (fun _ => 0) "DOGE" 0 rfl
    (Account.mk "ak_test" 1000 1000 []) "p1" "ak_test" Side.long 10 5 (by norm_num)

/-- C7.  On an account whose position ids are distinct, closing an id that
is present succeeds and removes exactly one entry from the position list
(the settlement filter keeps every position with a different id), while
closing an id that is absent — in particular a second close of the same id
— fails with the position-not-found error and, the error being raised
before any mutation, leaves the position list unchanged. -/
theorem close_removes_exactly_one (closing_price : ℚ) (account : Account)
    (position_id : String)
    (hnodup : (account.positions.map Position.id).Nodup)
    (hprice : closing_price ≠ 0)
    (hentry : ∀ p ∈ account.positions, p.entry_price ≠ 0) :
    ((∃ p ∈ account.positions, p.id = position_id) →
      ∃ acc' pnl, close_position closing_price account position_id = .ok (acc', pnl) ∧
        acc'.positions = account.positions.filter (fun q => q.id ≠ position_id) ∧
        acc'.positions.length + 1 = account.positions.length) ∧
    ((∀ p ∈ account.positions, p.id ≠ position_id) →
      close_position closing_price account position_id = .error .positionNotFound) := by
  constructor
  · rintro ⟨p, hp, hpid⟩
    have hsome : (account.positions.find? (fun q => q.id = position_id)).isSome := by
      rw [List.find?_isSome]
      exact ⟨p, hp, by simp [hpid]⟩
    obtain ⟨q, hq⟩ := Option.isSome_iff_exists.mp hsome
    have hqmem := List.mem_of_find?_eq_some hq
    have hqid : q.id = position_id := by simpa using List.find?_some hq
    refine ⟨{ account with
        available_collateral_ae := account.available_collateral_ae + q.collateral_ae +
          (calculate_position_pnl q.size_usd q.entry_price closing_price q.side).pnl_usd
            / closing_price
        positions := account.positions.filter (fun r => r.id ≠ position_id) },
      (calculate_position_pnl q.size_usd q.entry_price closing_price q.side).pnl_usd
        / closing_price, ?_, rfl, ?_⟩
    · unfold close_position
      rw [hq]
      simp only
      rw [if_neg (hentry q hqmem), if_neg hprice]
    · simp only
      exact length_filter_of_nodup hnodup hqmem hqid
  · intro hnone
    have hfind : account.positions.find? (fun q => q.id = position_id) = none := by
      rw [List.find?_eq_none]
      intro p hp
      simp [hnone p hp]
    unfold close_position
    rw [hfind]

/-- Witness for C7: an account with one open position; closing "p1"
removes exactly that entry, closing the absent id "zzz" errors. -/
theorem close_removes_exactly_one_witness :
    (∃ acc' pnl, close_position 70000
        (Account.mk "ak_test" 1000 990
          [{ id := "p1", asset := "BTC", side := Side.long, size_usd := 3400000,
             collateral_ae := 10, leverage := 5, entry_price := 68000,
             liquidation_price := 54400 }]) "p1" = .ok (acc', pnl) ∧
      acc'.positions = (Account.mk "ak_test" 1000 990
          [{ id := "p1", asset := "BTC", side := Side.long, size_usd := 3400000,
             collateral_ae := 10, leverage := 5, entry_price := 68000,
             liquidation_price := 54400 }]).positions.filter (fun q => q.id ≠ "p1") ∧
      acc'.positions.length + 1 = 1) ∧
    close_position 70000
      (Account.mk "ak_test" 1000 990
        [{ id := "p1", asset := "BTC", side := Side.long, size_usd := 3400000,
           collateral_ae := 10, leverage := 5, entry_price := 68000,
           liquidation_price := 54400 }]) "zzz" = .error .positionNotFound := by
  constructor
  · exact (close_removes_exactly_one 70000 _ "p1" (by simp) (by norm_num)
      (by intro p hp; simp at hp; subst hp; norm_num)).1
      ⟨{ id := "p1", asset := "BTC", side := Side.long, size_usd := 3400000,
         collateral_ae := 10, leverage := 5, entry_price := 68000,
         liquidation_price := 54400 }, by simp, rfl⟩
  · exact (close_removes_exactly_one 70000 _ "zzz" (by simp) (by norm_num)
      (by intro p hp; simp at hp; subst hp; norm_num)).2
      (by intro p hp; simp at hp; subst hp; simp)

/-- C9.  `open_position` never validates the request's leverage: with
`leverage = 0` the guards pass and the unguarded `1 / leverage` raises a
`ZeroDivisionError` (no error of the spec's taxonomy); with
`0 < leverage < 1` a long open succeeds with a negative liquidation price;
with `leverage < 0` a long open succeeds with a liquidation price above the
entry price. -/
theorem open_leverage_unvalidated (entry_price : ℚ) (account : Account)
    (addr asset new_id : String) (c : ℚ)
    (hc : c ≤ account.available_collateral_ae) (he : 0 < entry_price) :
    open_position entry_price new_id account ⟨addr, asset, Side.long, c, 0⟩ =
      .error .zeroDivision ∧
    (∀ lev : ℚ, 0 < lev → lev < 1 →
      ∃ acc' pos, open_position entry_price new_id account
          ⟨addr, asset, Side.long, c, lev⟩ = .ok (acc', pos) ∧
        pos.liquidation_price < 0) ∧
    (∀ lev : ℚ, lev < 0 →
      ∃ acc' pos, open_position entry_price new_id account
          ⟨addr, asset, Side.long, c, lev⟩ = .ok (acc', pos) ∧
        entry_price < pos.liquidation_price) := by
  refine ⟨?_, ?_, ?_⟩
  · unfold open_position
    simp [not_lt.mpr hc, ne_of_gt he]
  · intro lev h0 h1
    refine ⟨_, _, open_position_ok_intro hc (ne_of_gt he) (ne_of_gt h0), ?_⟩
    show entry_price * (1 - 1 / lev) < 0
    have hgt : 1 < 1 / lev := one_lt_one_div h0 h1
    exact mul_neg_of_pos_of_neg he (by linarith)
  · intro lev hneg
    refine ⟨_, _, open_position_ok_intro hc (ne_of_gt he) (ne_of_lt hneg), ?_⟩
    show entry_price < entry_price * (1 - 1 / lev)
    have hd : 1 / lev < 0 := div_neg_of_pos_of_neg one_pos hneg
    nlinarith [mul_pos he (neg_pos.mpr hd)]

/-- Witness for C9: at entry 100 with ample collateral, leverage 0 raises
the division error, leverage 1/2 gives a negative liquidation price, and
leverage −1 gives a liquidation price above the entry. -/
theorem open_leverage_unvalidated_witness :
    open_position 100 "w1" (Account.mk "ak_test" 1000 1000 [])
      ⟨"ak_test", "BTC", Side.long, 10, 0⟩ = .error .zeroDivision ∧
    (∃ acc' pos, open_position 100 "w1" (Account.mk "ak_test" 1000 1000 [])
        ⟨"ak_test", "BTC", Side.long, 10, 1/2⟩ = .ok (acc', pos) ∧
      pos.liquidation_price < 0) ∧
    (∃ acc' pos, open_position 100 "w1" (Account.mk "ak_test" 1000 1000 [])
        ⟨"ak_test", "BTC", Side.long, 10, -1⟩ = .ok (acc', pos) ∧
      (100 : ℚ) < pos.liquidation_price) := by
  obtain ⟨h1, h2, h3⟩ := open_leverage_unvalidated 100
    (Account.mk "ak_test" 1000 1000 []) "ak_test" "BTC" "w1" 10
    (by norm_num) (by norm_num)
  exact ⟨h1, h2 (1/2) (by norm_num) (by norm_num), h3 (-1) (by norm_num)⟩

/-- C10.  The insufficiency check is the only collateral validation, and it
only bounds the collateral from above: any `collateral_to_use_ae ≤
available_collateral_ae`, including zero or negative amounts, passes.  The
open then succeeds, appends a position whose `size_usd =
collateral × entry × leverage` is non-positive when the collateral is, and
deducting a negative collateral increases the available collateral by its
absolute value. -/
theorem open_accepts_nonpositive_collateral (entry_price lev : ℚ)
    (account : Account) (addr asset new_id : String) (side : Side) (c : ℚ)
    (hc : c ≤ account.available_collateral_ae) (he : 0 < entry_price)
    (hl : 0 < lev) :
    ∃ acc' pos, open_position entry_price new_id account
        ⟨addr, asset, side, c, lev⟩ = .ok (acc', pos) ∧
      acc'.available_collateral_ae = account.available_collateral_ae - c ∧
      acc'.positions = account.positions ++ [pos] ∧
      pos.size_usd = c * entry_price * lev ∧
      (c ≤ 0 → pos.size_usd ≤ 0) ∧
      (c < 0 → acc'.available_collateral_ae =
        account.available_collateral_ae + |c|) := by
  refine ⟨_, _, open_position_ok_intro hc (ne_of_gt he) (ne_of_gt hl),
    rfl, rfl, rfl, ?_, ?_⟩
  · intro hc0
    simp only
    nlinarith [mul_pos he hl]
  · intro hcneg
    simp only
    rw [abs_of_neg hcneg]
    ring

/-- Witness for C10: collateral −5 at leverage 5 and entry 100 passes the
check against 1000 available, yields a position of size −2500 USD and
raises the available collateral to 1005. -/
theorem open_accepts_nonpositive_collateral_witness :
    ∃ acc' pos, open_position 100 "w2" (Account.mk "ak_test" 1000 1000 [])
        ⟨"ak_test", "BTC", Side.long, -5, 5⟩ = .ok (acc', pos) ∧
      pos.size_usd ≤ 0 ∧ acc'.available_collateral_ae = 1000 + 5 := by
  obtain ⟨acc', pos, h, h1, h2, h3, h4, h5⟩ :=
    open_accepts_nonpositive_collateral 100 5 (Account.mk "ak_test" 1000 1000 [])
      "ak_test" "BTC" "w2" Side.long (-5) (by norm_num) (by norm_num) (by norm_num)
  refine ⟨acc', pos, h, h4 (by norm_num), ?_⟩
  rw [h5 (by norm_num)]
  norm_num

/-- C2.  The `main.py` close endpoint computes the realized PnL with the
long formula regardless of side (line 121): closing a short of size
3400000 USD opened at entry 68000 when the price has risen to 70000
realizes `+100000 USD = +10/7 AE` — a profit — whereas the side-dependent
formula of §4.2 (embedded as `calculate_position_pnl`, which the
`api/index.py` close does use) values that short at `−100000 USD`. -/
theorem main_close_short_uses_long_formula :
    main_close_position 70000
      (Account.mk "ak_test" 1000 990
        [{ id := "s1", asset := "BTC", side := Side.short, size_usd := 3400000,
           collateral_ae := 10, leverage := 5, entry_price := 68000,
           liquidation_price := 81600 }]) "s1" =
      .ok (Account.mk "ak_test" 1000 (1000 + 10/7) [], 10/7) ∧
    (0 : ℚ) < 10/7 ∧
    (calculate_position_pnl 3400000 68000 70000 Side.short).pnl_usd = -100000 := by
  refine ⟨?_, by norm_num, ?_⟩
  · norm_num [main_close_position, List.find?, List.filter]
  · norm_num [calculate_position_pnl, pyRound, pyRoundInt,
      if_neg (fun h => Side.noConfusion h : ¬(Side.short = Side.long))]
